import Mathlib

/-!
# Verification of the Genesis manual system (pager, key decoder, registry, sandbox)

Shallow embedding of the TypeScript sources:
* `src/manual/core/pager.ts`    — `ManualPager` (view state, render loop, search, key reader)
* `src/manual/core/renderer.ts` — `PageRenderer.highlightSearch`
* `src/manual/core/registry.ts` — `ManualRegistry` (case-insensitive page map)
* `genesis-man.ts`              — `showManual` / `manCommand` exit codes
* `PathSandbox`                 — modelled from the spec (source not present)

JavaScript `number` arithmetic in the pager only ever produces non-negative
integers clamped by explicit `Math.max(ـ, 0)` guards, so `Nat` with truncated
subtraction models it exactly (`Nat` subtraction `a - b` is `max(0, a - b)`).
-/

set_option maxHeartbeats 1000000

/-- Models JavaScript `Char` lowering as used by `String.prototype.toLowerCase`
on the code points occurring in manual pages: ASCII letters `A`–`Z` map to
`a`–`z`, every other code point is unchanged. -/
def charToLowerCase (c : Char) : Char :=
  if 65 ≤ c.toNat ∧ c.toNat ≤ 90 then Char.ofNat (c.toNat + 32) else c

/-- Models JavaScript `String.prototype.toLowerCase` (ASCII range). -/
def toLowerCase (s : String) : String :=
  String.mk (s.data.map charToLowerCase)

/-- Substring containment on character lists (leftmost scan), the semantics of
JavaScript `String.prototype.includes`. -/
def containsSub (hay needle : List Char) : Bool :=
  if needle.isPrefixOf hay then true
  else
    match hay with
    | [] => false
    | _ :: rest => containsSub rest needle

/-- Models JavaScript `hay.includes(sub)`. -/
def jsIncludes (hay sub : String) : Bool :=
  containsSub hay.data sub.data

-- =============================================================================
-- ManualPager view state (src/manual/core/pager.ts, class fields lines 19-27)
-- =============================================================================

/-- The mutable fields of `ManualPager` that the render loop reads and writes
(`animationFrame`, a cosmetic spinner counter, and `terminalWidth`, used only
for status-bar drawing, are carried but never constrain the claims). -/
structure PagerState where
  lines : List String
  currentLine : Nat
  terminalHeight : Nat
  terminalWidth : Nat
  searchTerm : String
  searchResults : List Nat
  currentSearchIndex : Nat
deriving Repr, DecidableEq

/-- `ManualPager` constructor: fresh fields, `terminalHeight = rows - 4`
(space for the status bar), `terminalWidth = columns`. -/
def pagerInit (rows columns : Nat) : PagerState :=
  { lines := []
    currentLine := 0
    terminalHeight := rows - 4
    terminalWidth := columns
    searchTerm := ""
    searchResults := []
    currentSearchIndex := 0 }

/-- `ManualPager.display(page)` state effect: `this.lines =
this.renderer.render(page); this.currentLine = 0;`.  The rendered line list
produced by `PageRenderer.render(page)` is passed in as `renderedLines`; no
other field is written before the render loop starts. -/
def display (st : PagerState) (renderedLines : List String) : PagerState :=
  { st with lines := renderedLines, currentLine := 0 }

-- =============================================================================
-- ManualPager.readKey (src/manual/core/pager.ts lines 270-316)
-- =============================================================================

/-- `ManualPager.readKey`: one raw chunk from stdin (`none` models a `null`
read, i.e. EOF) decoded to the key string the render loop switches on.
Mirrors the source exactly: a single byte that matches none of the single-byte
rules, and any chunk that is not a recognized `ESC [` sequence of length ≥ 3,
decode to `""`. -/
def readKey : Option (List Nat) → String
  | none => "q"
  | some data =>
    if data.length = 1 then
      let byte := data.getD 0 0
      if byte = 0x03 then "q"
      else if byte = 0x04 then "q"
      else if byte = 0x20 then " "
      else if byte = 0x0A ∨ byte = 0x0D then "down"
      else if 0x20 ≤ byte ∧ byte ≤ 0x7E then String.mk [Char.ofNat byte]
      else ""
    else if 3 ≤ data.length ∧ data.getD 0 0 = 0x1B ∧ data.getD 1 0 = 0x5B then
      let code := data.getD 2 0
      if code = 0x41 then "up"
      else if code = 0x42 then "down"
      else if code = 0x43 then "right"
      else if code = 0x44 then "left"
      else if code = 0x35 then "pageup"
      else if code = 0x36 then "pagedown"
      else if code = 0x48 then "home"
      else if code = 0x46 then "end"
      else ""
    else ""

/-- The key strings `readKey` hands to the navigation cases of the render
loop for arrow / page / home / end escape sequences. -/
def navigationKeys : List String :=
  ["up", "down", "right", "left", "pageup", "pagedown", "home", "end"]

-- =============================================================================
-- ManualPager.search / nextSearchResult / prevSearchResult (lines 182-222)
-- =============================================================================

/-- The `forEach` over `this.lines` in `ManualPager.search`: collect, in
order, the indices (starting at `i`) of lines whose lowercase form contains
the lowercase search term. -/
def computeResultsAux (term : String) : List String → Nat → List Nat
  | [], _ => []
  | line :: rest, i =>
    if jsIncludes (toLowerCase line) (toLowerCase term) then
      i :: computeResultsAux term rest (i + 1)
    else
      computeResultsAux term rest (i + 1)

/-- Indices of all lines containing `term` as a case-insensitive substring. -/
def computeResults (lines : List String) (term : String) : List Nat :=
  computeResultsAux term lines 0

/-- `ManualPager.search`: `this.searchTerm = prompt("") || ""` (`input =
none` models a `null` prompt result); when the term is non-empty the results
are recomputed, and when at least one line matches, the match cursor resets
to 0 and the view jumps to the first match.  An empty term leaves
`searchResults`, `currentSearchIndex` and `currentLine` untouched. -/
def searchCmd (st : PagerState) (input : Option String) : PagerState :=
  let term := input.getD ""
  let st1 := { st with searchTerm := term }
  if term = "" then st1
  else
    let results := computeResults st1.lines term
    let st2 := { st1 with searchResults := results }
    match results with
    | [] => st2
    | r :: _ => { st2 with currentSearchIndex := 0, currentLine := r }

/-- `ManualPager.nextSearchResult`. -/
def nextSearchResult (st : PagerState) : PagerState :=
  if st.searchResults.length = 0 then st
  else
    let i := (st.currentSearchIndex + 1) % st.searchResults.length
    { st with currentSearchIndex := i, currentLine := st.searchResults.getD i 0 }

/-- `ManualPager.prevSearchResult`. -/
def prevSearchResult (st : PagerState) : PagerState :=
  if st.searchResults.length = 0 then st
  else
    let i := if st.currentSearchIndex = 0
      then st.searchResults.length - 1
      else st.currentSearchIndex - 1
    { st with currentSearchIndex := i, currentLine := st.searchResults.getD i 0 }

-- =============================================================================
-- ManualPager.renderLoop key dispatch (src/manual/core/pager.ts lines 62-122)
-- =============================================================================

/-- One `switch (key)` dispatch of `ManualPager.renderLoop`.  `input` is the
term the `prompt` inside `search()` would collect when `key = "/"`.  `"q"`
exits the loop and `"h"`/`"?"` show the help overlay; neither writes any of
the modelled fields, so they fall through to the identity default case. -/
def pagerStep (st : PagerState) (key : String) (input : Option String) : PagerState :=
  if key = "j" ∨ key = "down" then
    if st.currentLine + st.terminalHeight < st.lines.length then
      { st with currentLine := st.currentLine + 1 }
    else st
  else if key = "k" ∨ key = "up" then
    if st.currentLine > 0 then { st with currentLine := st.currentLine - 1 }
    else st
  else if key = " " ∨ key = "pagedown" then
    let bound := st.lines.length - st.terminalHeight
    { st with currentLine := min (st.currentLine + st.terminalHeight) bound }
  else if key = "b" ∨ key = "pageup" then
    { st with currentLine := st.currentLine - st.terminalHeight }
  else if key = "g" ∨ key = "home" then
    { st with currentLine := 0 }
  else if key = "G" ∨ key = "end" then
    { st with currentLine := st.lines.length - st.terminalHeight }
  else if key = "/" then searchCmd st input
  else if key = "n" then nextSearchResult st
  else if key = "N" then prevSearchResult st
  else st

-- =============================================================================
-- PageRenderer.highlightSearch (src/manual/core/renderer.ts lines 148-153)
-- =============================================================================

/-- `colors.highlight(text)` from `src/manual/core/colors.ts`: bold +
24-bit foreground 0x00FFAA, closed by a reset code. -/
def colorsHighlight (text : String) : String :=
  "\x1B[1m\x1B[38;2;0;255;170m" ++ text ++ "\x1B[0m"

/-- Models ECMAScript `new RegExp(pattern, "gi")` compilation success.
The scanner rejects exactly the malformed patterns the engine rejects among
the constructs search terms can contain: an unterminated character class
(`SyntaxError: unterminated character class`, the `"["` case the repository
test exercises), a trailing backslash, an unmatched `(` and a stray `)`.
(Patterns it accepts beyond those the engine accepts never arise in the
claims, which evaluate only literal terms and `"["`.)  `inClass` is true
between an opening `[` and its closing `]`, where `(`/`)` are literals;
`depth` counts open groups. -/
def regexScan : List Char → Bool → Nat → Bool
  | [], inClass, depth => if inClass then false else depth == 0
  | '\\' :: [], _, _ => false
  | '\\' :: _ :: rest2, inClass, depth => regexScan rest2 inClass depth
  | '[' :: rest, _, depth => regexScan rest true depth
  | ']' :: rest, _, depth => regexScan rest false depth
  | '(' :: rest, inClass, depth =>
    if inClass then regexScan rest true depth else regexScan rest false (depth + 1)
  | ')' :: rest, inClass, depth =>
    if inClass then regexScan rest true depth
    else if depth == 0 then false else regexScan rest false (depth - 1)
  | _ :: rest, inClass, depth => regexScan rest inClass depth

/-- Whether `new RegExp(pattern, "gi")` compiles without throwing. -/
def regexCompiles (pattern : String) : Bool :=
  regexScan pattern.data false 0

/-- The global case-insensitive `line.replace(regex, m => colors.highlight(m))`
for a literal (metacharacter-free) search pattern with head `t` and tail `ts`:
scan left to right, wrap each non-overlapping case-insensitive occurrence of
the pattern in the highlight codes. -/
def replaceHighlightAux (t : Char) (ts : List Char) : List Char → List Char
  | [] => []
  | c :: rest =>
    if ((t :: ts).map charToLowerCase).isPrefixOf ((c :: rest).map charToLowerCase) then
      (colorsHighlight (String.mk ((c :: rest).take (ts.length + 1)))).data
        ++ replaceHighlightAux t ts ((c :: rest).drop (ts.length + 1))
    else
      c :: replaceHighlightAux t ts rest
termination_by l => l.length
decreasing_by
  all_goals simp [List.length_drop]
  all_goals omega

/-- `PageRenderer.highlightSearch(line, searchTerm)`: the empty term returns
the line unchanged; otherwise `new RegExp(searchTerm, "gi")` is constructed —
a malformed term throws `SyntaxError` (`Except.error`) — and every match is
replaced by its highlighted form.  Replacement is modelled for literal terms,
the only shape the claims evaluate; the error/success split is the faithful
part every claim depends on. -/
def highlightSearch (line searchTerm : String) : Except String String :=
  if searchTerm = "" then .ok line
  else if regexCompiles searchTerm then
    match searchTerm.data with
    | [] => .ok line
    | t :: ts => .ok (String.mk (replaceHighlightAux t ts line.data))
  else .error "SyntaxError: Invalid regular expression"

/-- The visible-line pass of `ManualPager.render`: `lines.slice(currentLine,
currentLine + terminalHeight)` each printed through
`renderer.highlightSearch(line, searchTerm)`.  The first line whose highlight
throws aborts the pass (and with it the render loop); the `~` filler and the
status bar, which cannot throw, are not part of the claims. -/
def renderVisible (st : PagerState) : Except String (List String) :=
  ((st.lines.drop st.currentLine).take st.terminalHeight).mapM
    (fun line => highlightSearch line st.searchTerm)

/-- One iteration of `ManualPager.renderLoop`: render the current state, then
dispatch the next key.  A `SyntaxError` escaping `render()` propagates out of
the loop (the `while` has no try/catch), ending the pager session. -/
def loopIter (st : PagerState) (key : String) (input : Option String) :
    Except String (List String × PagerState) :=
  match renderVisible st with
  | .error e => .error e
  | .ok out => .ok (out, pagerStep st key input)

-- =============================================================================
-- ManualPage / ManualRegistry (src/manual/core/types.ts, registry.ts)
-- =============================================================================

/-- `ManualSection` from `types.ts`.  The optional `subsections` field is
omitted: no page in the repository sets it and no function reads it. -/
structure ManualSection where
  title : String
  content : List String
deriving Repr, DecidableEq

/-- `ManualPage` from `types.ts` (optional fields as `Option`). -/
structure ManualPage where
  command : String
  synopsis : String
  description : List String
  sections : List ManualSection
  seeAlso : Option (List String) := none
  author : Option String := none
  version : Option String := none
  philosophy : Option (List String) := none
deriving Repr, DecidableEq

/-- JavaScript `Map.prototype.get` on an insertion-ordered entry list. -/
def mapGet : List (String × ManualPage) → String → Option ManualPage
  | [], _ => none
  | (k', v) :: rest, k => if k' = k then some v else mapGet rest k

/-- JavaScript `Map.prototype.set`: replace the value in place if the key is
present, else append the new entry. -/
def mapSet : List (String × ManualPage) → String → ManualPage → List (String × ManualPage)
  | [], k, v => [(k, v)]
  | (k', v') :: rest, k, v =>
    if k' = k then (k, v) :: rest else (k', v') :: mapSet rest k v

/-- JavaScript `Map.prototype.delete`: the updated entries and whether an
entry was removed. -/
def mapDelete : List (String × ManualPage) → String → List (String × ManualPage) × Bool
  | [], _ => ([], false)
  | (k', v') :: rest, k =>
    if k' = k then (rest, true)
    else
      let r := mapDelete rest k
      ((k', v') :: r.1, r.2)

/-- `ManualRegistry` (src/manual/core/registry.ts): a `Map<string, ManualPage>`. -/
structure ManualRegistry where
  pages : List (String × ManualPage)
deriving Repr, DecidableEq

/-- `ManualRegistry.get`: `this.pages.get(command.toLowerCase())`. -/
def ManualRegistry.get (r : ManualRegistry) (command : String) : Option ManualPage :=
  mapGet r.pages (toLowerCase command)

/-- `ManualRegistry.has`: `this.pages.has(command.toLowerCase())`. -/
def ManualRegistry.hasPage (r : ManualRegistry) (command : String) : Bool :=
  (mapGet r.pages (toLowerCase command)).isSome

/-- `ManualRegistry.list`: sorted key list. -/
def ManualRegistry.list (r : ManualRegistry) : List String :=
  (r.pages.map Prod.fst).mergeSort (· ≤ ·)

/-- `ManualRegistry.register`: `this.pages.set(command.toLowerCase(), page)`. -/
def ManualRegistry.register (r : ManualRegistry) (command : String) (page : ManualPage) :
    ManualRegistry :=
  ⟨mapSet r.pages (toLowerCase command) page⟩

/-- `ManualRegistry.unregister`: `this.pages.delete(command.toLowerCase())`,
returning the updated registry and the deletion flag. -/
def ManualRegistry.unregister (r : ManualRegistry) (command : String) :
    ManualRegistry × Bool :=
  let d := mapDelete r.pages (toLowerCase command)
  (⟨d.1⟩, d.2)

-- =============================================================================
-- showManual / manCommand (genesis-man.ts lines 37-53 and 146-156)
-- =============================================================================

/-- Outcome of `showManual(topic)`: either the page was found and handed to
the pager, or the not-found branch printed the error banner and the list of
available topics and returned normally. -/
inductive ShowOutcome where
  | shown (page : ManualPage)
  | notFound (available : List String)
deriving Repr, DecidableEq

/-- `showManual(topic)`: `registry.get(topic.toLowerCase())`; on a miss it
prints the available pages and returns (it does not throw and sets no exit
code). -/
def showManual (reg : ManualRegistry) (topic : String) : ShowOutcome :=
  match reg.get (toLowerCase topic) with
  | none => .notFound reg.list
  | some page => .shown page

/-- `manCommand(args)`: `const topic = args[0] || "genesis"` then
`await showManual(topic); return 0`, with `catch { return 1 }`.  The
not-found branch of `showManual` only prints, so it cannot throw; the only
throw site reachable inside the `try` is the interactive pager on a found
page, modelled by `displayThrows`. -/
def manCommand (reg : ManualRegistry) (args : List String) (displayThrows : Bool) : Nat :=
  let topic := if args.getD 0 "" = "" then "genesis" else args.getD 0 ""
  match showManual reg topic with
  | .notFound _ => 0
  | .shown _ => if displayThrows then 1 else 0

-- =============================================================================
-- PathSandbox (spec §4.4; the PathSandbox source file is not in the repository
-- snapshot, only the spec describes it)
-- =============================================================================

/-- An absolute path, as its segment list below the filesystem root
(`/repo/sub` is `["repo", "sub"]`). -/
abbrev AbsPath := List String

/-- Result of `PathSandbox.resolve`: an allowed absolute path, or `Denied`. -/
inductive ResolveResult where
  | allowed (path : AbsPath)
  | denied
deriving Repr, DecidableEq

/-- Split a character list on the `/` separator (the semantics of
`String.splitOn "/"`). -/
def splitSegmentsAux : List Char → List Char → List String
  | [], acc => [String.mk acc.reverse]
  | c :: rest, acc =>
    if c = '/' then String.mk acc.reverse :: splitSegmentsAux rest []
    else splitSegmentsAux rest (c :: acc)

/-- Segments of a candidate path string, split on the `/` separator. -/
def splitSegments (candidate : String) : List String :=
  splitSegmentsAux candidate.data []

/-- Whether the candidate uses absolute-path syntax (leading `/`). -/
def startsWithSlash (candidate : String) : Bool :=
  match candidate.data with
  | [] => false
  | c :: _ => c = '/'

/-- Modelled from the spec: full canonicalization of `.`/`..` segments against
a base absolute path, "in full before the containment check, never
incrementally per segment", without touching the filesystem.  `..` at the
filesystem root stays at the root (`dropLast` of `[]` is `[]`); empty
segments (from doubled separators) and `.` are skipped. -/
def canonicalize (base : AbsPath) : List String → AbsPath
  | [] => base
  | seg :: rest =>
    if seg = "" ∨ seg = "." then canonicalize base rest
    else if seg = ".." then canonicalize base.dropLast rest
    else canonicalize (base ++ [seg]) rest

/-- Modelled from the spec: `PathSandbox.resolve(candidate, currentDir, root)`
— empty candidate resolves to `root`; absolute-path syntax is rejected
outright; otherwise the candidate is joined to `currentDir`, canonicalized in
full, and the canonical result is allowed iff it is `root` itself or a
descendant of `root` (the relative path from `root` to it has no leading
parent segment, i.e. `root` is a segment-list prefix). -/
def PathSandbox.resolve (candidate : String) (currentDir root : AbsPath) : ResolveResult :=
  if candidate = "" then .allowed root
  else if startsWithSlash candidate then .denied
  else
    let canonical := canonicalize currentDir (splitSegments candidate)
    if root.isPrefixOf canonical then .allowed canonical else .denied

-- =============================================================================
-- Claim theorems
-- =============================================================================

/-- `List.isPrefixOf` is reflexive (lists of strings). -/
theorem isPrefixOf_self (l : List String) : l.isPrefixOf l = true := by
  induction l with
  | nil => rfl
  | cons a rest ih => simp [List.isPrefixOf, ih]

/-- **C1.** For every candidate path string (in particular any containing `..`
segment chains) and every `currentDir` under `root`,
`PathSandbox.resolve(candidate, currentDir, root)` never yields an absolute
path outside `root`: every `allowed` result is `root` itself or a descendant
of `root` (`root` is a prefix of its segments); all other cases are `Denied`. -/
theorem resolve_never_escapes_root (candidate : String) (currentDir root : AbsPath)
    (_hsub : root.isPrefixOf currentDir = true) :
    ∀ p : AbsPath, PathSandbox.resolve candidate currentDir root = .allowed p →
      root.isPrefixOf p = true := by
  intro p hp
  unfold PathSandbox.resolve at hp
  split at hp
  · cases hp
    exact isPrefixOf_self root
  · split at hp
    · cases hp
    · simp only [] at hp
      split at hp
      · cases hp
        assumption
      · cases hp

/-- Witness for C1: `root = /repo`, `currentDir = /repo/sub`; the candidate
`../../repo/sub/../sub/x` resolves inside the root, and the theorem applies
to it. -/
theorem resolve_never_escapes_root_witness :
    PathSandbox.resolve "../../repo/sub/../sub/x" ["repo", "sub"] ["repo"] =
      .allowed ["repo", "sub", "x"] ∧
    List.isPrefixOf ["repo"] ["repo", "sub", "x"] = true := by
  constructor
  · decide
  · exact resolve_never_escapes_root "../../repo/sub/../sub/x" ["repo", "sub"] ["repo"]
      (by decide) ["repo", "sub", "x"] (by decide)

/-- Every index collected by the search scan starting at offset `i` is below
`i +` the number of scanned lines. -/
theorem mem_computeResultsAux {term : String} {x : Nat} :
    ∀ (lines : List String) (i : Nat), x ∈ computeResultsAux term lines i →
      x < i + lines.length := by
  intro lines
  induction lines with
  | nil => intro i h; simp [computeResultsAux] at h
  | cons l rest ih =>
    intro i h
    unfold computeResultsAux at h
    split at h
    · rcases List.mem_cons.mp h with h1 | h2
      · subst h1; simp
      · have := ih (i + 1) h2
        simp only [List.length_cons]
        omega
    · have := ih (i + 1) h
      simp only [List.length_cons]
      omega

/-- Every match index produced by `ManualPager.search` is a valid line index. -/
theorem mem_computeResults_lt {lines : List String} {term : String} {x : Nat}
    (h : x ∈ computeResults lines term) : x < lines.length := by
  have := mem_computeResultsAux lines 0 h
  omega

/-- In-bounds `getD` returns an element of the list. -/
theorem getD_mem_of_lt {l : List Nat} {i : Nat} (h : i < l.length) : l.getD i 0 ∈ l := by
  rw [List.getD_eq_getElem?_getD, List.getElem?_eq_getElem h]
  exact List.getElem_mem h

/-- A five-line rendered document in a two-line viewport, fresh view state:
the scroll bound `max(0, totalLines − viewportHeight)` is `3`, while the only
line containing `"x"` is line `4`. -/
def demoState : PagerState :=
  { lines := ["alpha", "bravo", "charlie", "delta", "xray"]
    currentLine := 0
    terminalHeight := 2
    terminalWidth := 80
    searchTerm := ""
    searchResults := []
    currentSearchIndex := 0 }

/-- **C2** (counterexample).  The claim fails as stated: from a state
satisfying the invariant, the search command `/` with term `"x"` jumps
`topLine` to the matching line `4`, strictly above
`max(0, totalLines − viewportHeight) = 3`. -/
theorem searchJump_breaks_topLine_bound :
    demoState.currentLine ≤ demoState.lines.length - demoState.terminalHeight ∧
    (pagerStep demoState "/" (some "x")).currentLine = 4 ∧
    ¬((pagerStep demoState "/" (some "x")).currentLine ≤
        (pagerStep demoState "/" (some "x")).lines.length -
          (pagerStep demoState "/" (some "x")).terminalHeight) := by
  refine ⟨by decide, by decide, by decide⟩

/-- **C2** (amended).  From a state satisfying
`topLine ≤ max(0, totalLines − viewportHeight)`, every key except the search
commands preserves that bound; the search commands instead bound `topLine` by
the document length: `/` leaves `topLine` unchanged or moves it to a matching
line index (`< totalLines`), and `n`/`N` leave it unchanged or move it to an
element of `matchLines`. -/
theorem pagerStep_topLine_bound_amended (st : PagerState) (key : String)
    (input : Option String)
    (hinv : st.currentLine ≤ st.lines.length - st.terminalHeight) :
    (key ≠ "/" ∧ key ≠ "n" ∧ key ≠ "N" →
        (pagerStep st key input).currentLine ≤
          (pagerStep st key input).lines.length -
            (pagerStep st key input).terminalHeight) ∧
    ((pagerStep st "/" input).currentLine = st.currentLine ∨
        (pagerStep st "/" input).currentLine < st.lines.length) ∧
    (∀ k, (k = "n" ∨ k = "N") →
        st.currentSearchIndex < st.searchResults.length ∨ st.searchResults = [] →
        (pagerStep st k input).currentLine = st.currentLine ∨
          (pagerStep st k input).currentLine ∈ st.searchResults) := by
  refine ⟨?_, ?_, ?_⟩
  · intro ⟨hs, hn, hN⟩
    unfold pagerStep
    repeat' split
    all_goals simp_all
    all_goals omega
  · have hstep : pagerStep st "/" input = searchCmd st input := by
      unfold pagerStep
      simp
    rw [hstep]
    by_cases h : input.getD "" = ""
    · left
      simp [searchCmd, h]
    · rcases hr : computeResults st.lines (input.getD "") with _ | ⟨r, rs⟩
      · left
        simp [searchCmd, h, hr]
      · right
        have hm : r ∈ computeResults st.lines (input.getD "") := by
          rw [hr]
          exact List.mem_cons_self _ _
        have hlt := mem_computeResults_lt hm
        simp [searchCmd, h, hr]
        exact hlt
  · intro k hk hidx
    have hstep : pagerStep st k input =
        if k = "n" then nextSearchResult st else prevSearchResult st := by
      rcases hk with h | h <;> subst h <;> unfold pagerStep <;> simp
    rw [hstep]
    rcases hidx with hlt | hempty
    · have hne : st.searchResults.length ≠ 0 := by omega
      split
      · right
        have hrw : (nextSearchResult st).currentLine =
            st.searchResults.getD ((st.currentSearchIndex + 1) % st.searchResults.length) 0 := by
          unfold nextSearchResult
          simp [hne]
        rw [hrw]
        exact getD_mem_of_lt (Nat.mod_lt _ (Nat.pos_of_ne_zero hne))
      · right
        have hrw : (prevSearchResult st).currentLine =
            st.searchResults.getD
              (if st.currentSearchIndex = 0 then st.searchResults.length - 1
               else st.currentSearchIndex - 1) 0 := by
          unfold prevSearchResult
          simp [hne]
        rw [hrw]
        apply getD_mem_of_lt
        split <;> omega
    · split
      · left
        unfold nextSearchResult
        simp [hempty]
      · left
        unfold prevSearchResult
        simp [hempty]

/-- Witness for C2 (amended): the scroll-down key from the demo state keeps
`topLine` within the bound. -/
theorem pagerStep_topLine_bound_amended_witness :
    (pagerStep demoState "j" none).currentLine ≤
      (pagerStep demoState "j" none).lines.length -
        (pagerStep demoState "j" none).terminalHeight :=
  (pagerStep_topLine_bound_amended demoState "j" none (by decide)).1
    (by refine ⟨by decide, by decide, by decide⟩)

/-- **C3** (counterexample).  The claim fails as stated: entering the
ill-formed search term `"["` through `/` does change the view state
(`searchTerm` becomes `"["`), and the next render-loop iteration aborts with
the `SyntaxError` thrown by `highlightSearch` instead of leaving the pager
open. -/
theorem invalid_pattern_counterexample :
    ((pagerStep demoState "/" (some "[")).searchTerm = "[") ∧
    (pagerStep demoState "/" (some "[")).searchTerm ≠ demoState.searchTerm ∧
    (loopIter (pagerStep demoState "/" (some "[")) "j" none).isOk = false := by
  refine ⟨by decide, by decide, by decide⟩

/-- **C3** (amended).  A search term that is not a well-formed pattern is
accepted by the search command — `searchTerm` is updated (match computation
uses substring semantics and cannot fail) — but the next iteration of the
render loop throws `SyntaxError` from `highlightSearch` as soon as any line
is visible, aborting the pager loop rather than leaving the pager open. -/
theorem invalid_pattern_aborts_pager (st : PagerState) (key : String)
    (input : Option String)
    (hterm : st.searchTerm ≠ "") (hbad : regexCompiles st.searchTerm = false)
    (hvis : st.currentLine < st.lines.length) (hh : 0 < st.terminalHeight) :
    (loopIter st key input).isOk = false ∧
    ∀ t, (searchCmd st (some t)).searchTerm = t := by
  constructor
  · have herr : ∀ line, highlightSearch line st.searchTerm =
        .error "SyntaxError: Invalid regular expression" := by
      intro line
      unfold highlightSearch
      simp [hterm, hbad]
    unfold loopIter renderVisible
    rcases hv : st.lines.drop st.currentLine with _ | ⟨v, rest⟩
    · have : st.lines.length ≤ st.currentLine := by
        simpa [List.drop_eq_nil_iff] using hv
      omega
    · rcases hht : st.terminalHeight with _ | m
      · omega
      · simp only [hv, hht, List.take_succ_cons, herr]
        rfl
  · intro t
    unfold searchCmd
    by_cases h : t = ""
    · simp [h]
    · simp [h]
      rcases computeResults st.lines t with _ | ⟨r, rs⟩ <;> simp

/-- Witness for C3 (amended): after searching for `"["` in the demo document,
the next loop iteration fails. -/
theorem invalid_pattern_aborts_pager_witness :
    (loopIter (pagerStep demoState "/" (some "[")) "j" none).isOk = false :=
  (invalid_pattern_aborts_pager (pagerStep demoState "/" (some "[")) "j" none
    (by decide) (by decide) (by decide) (by decide)).1

/-- A registry with the three keys the default `ManualRegistry` constructor
installs (`genesis`, `init`, `dev`).  The page bodies — hundreds of lines of
display text — are irrelevant to every lookup and exit-code path and are
abbreviated to their leading fields. -/
def sampleRegistry : ManualRegistry :=
  ⟨[("genesis",
     { command := "genesis"
       synopsis := "genesis <command> [options]"
       description := ["The Deno Genesis CLI - where Unix Philosophy meets Modern Runtime."]
       sections := [] }),
    ("init",
     { command := "genesis init"
       synopsis := "genesis init [options]"
       description := ["Initialize a new Genesis project."]
       sections := [] }),
    ("dev",
     { command := "genesis dev"
       synopsis := "genesis dev [--port=3000] [--host=localhost] [--watch]"
       description := ["Start the development server with hot reload capabilities."]
       sections := [] })]⟩

/-- **C4** (counterexample).  The claim fails as stated: for the absent topic
`"zzz"`, `showManual` takes the not-found branch (it only prints), no
exception reaches `manCommand`'s catch, and `manCommand` returns `0`, not
`1`. -/
theorem manCommand_absent_topic_returns_zero :
    sampleRegistry.get "zzz" = none ∧
    manCommand sampleRegistry ["zzz"] false = 0 ∧
    manCommand sampleRegistry ["zzz"] true = 0 ∧
    manCommand sampleRegistry ["zzz"] false ≠ 1 := by
  refine ⟨by decide, by decide, by decide, by decide⟩

/-- **C4** (amended).  `manCommand` returns `0` both when the topic is
present (and the pager completes) and when the topic is absent — the
not-found branch prints the available topics without setting a failure code;
`1` is returned only when an exception (possible only from the interactive
pager on a found page) escapes into the catch. -/
theorem manCommand_exit_code_amended (reg : ManualRegistry) (args : List String)
    (displayThrows : Bool) (topic : String)
    (htopic : topic = if args.getD 0 "" = "" then "genesis" else args.getD 0 "") :
    (reg.get (toLowerCase topic) = none → manCommand reg args displayThrows = 0) ∧
    (∀ p, reg.get (toLowerCase topic) = some p →
        manCommand reg args displayThrows = if displayThrows then 1 else 0) := by
  subst htopic
  constructor
  · intro hnone
    simp only [List.getD_eq_getElem?_getD] at hnone
    simp [manCommand, showManual, hnone]
  · intro p hp
    simp only [List.getD_eq_getElem?_getD] at hp
    simp [manCommand, showManual, hp]

/-- Witness for C4 (amended): on the sample registry, `man zzz` exits 0. -/
theorem manCommand_exit_code_amended_witness :
    manCommand sampleRegistry ["zzz"] false = 0 :=
  (manCommand_exit_code_amended sampleRegistry ["zzz"] false "zzz" (by decide)).1
    (by decide)

/-- **C5** (counterexample).  The claim fails as stated: the single bytes
`0x0A` and `0x0D` decode to `"down"` — exactly the key the Down-arrow escape
sequence decodes to, i.e. a navigation key, not a distinct Enter key (no
`"enter"` value exists anywhere in the decoder). -/
theorem enter_bytes_decode_to_navigation :
    readKey (some [0x0A]) = "down" ∧
    readKey (some [0x0D]) = "down" ∧
    navigationKeys.contains (readKey (some [0x0A])) = true ∧
    navigationKeys.contains (readKey (some [0x0D])) = true := by
  refine ⟨by decide, by decide, by decide, by decide⟩

/-- **C5** (amended).  For every single-byte input chunk equal to `0x0A` or
`0x0D`, `readKey` returns `"down"`, the same navigation key as the Down-arrow
escape sequence: in the pager, Enter scrolls down one line. -/
theorem readKey_enter_scrolls_down :
    readKey (some [0x0A]) = "down" ∧
    readKey (some [0x0D]) = "down" ∧
    readKey (some [0x0A]) = readKey (some [0x1B, 0x5B, 0x42]) := by
  refine ⟨by decide, by decide, by decide⟩

/-- **C6** (counterexample).  The claim fails as stated: after a search for
`"x"` (matching exactly line 4 of the demo document), collecting the empty
term sets `searchTerm := ""` but retains the stale `matchLines = [4]` — it is
not recomputed for the new term (the recomputation for `""` would give every
line index). -/
theorem empty_term_retains_stale_matches :
    ((pagerStep (pagerStep demoState "/" (some "x")) "/" (some "")).searchTerm = "") ∧
    ((pagerStep (pagerStep demoState "/" (some "x")) "/" (some "")).searchResults = [4]) ∧
    computeResults demoState.lines "" = [0, 1, 2, 3, 4] ∧
    (pagerStep (pagerStep demoState "/" (some "x")) "/" (some "")).searchResults ≠
      computeResults demoState.lines "" := by
  refine ⟨by decide, by decide, by decide, by decide⟩

/-- **C6** (amended).  When the collected term is non-empty, `matchLines` is
recomputed as the ordered indices of lines containing it (case-insensitive
substring); if at least one line matches, `currentMatchIndex` is set to `0`
and `topLine` jumps to the first match, and if none does, the match cursor
and `topLine` are unchanged.  When the collected term is empty (including a
cancelled prompt), only `searchTerm` is overwritten: stale `matchLines`,
`currentMatchIndex` and `topLine` from the previous term are retained. -/
theorem search_recompute_amended (st : PagerState) (t : String) (ht : t ≠ "") :
    ((pagerStep st "/" (some t)).searchTerm = t) ∧
    ((pagerStep st "/" (some t)).searchResults = computeResults st.lines t) ∧
    (computeResults st.lines t = [] →
        (pagerStep st "/" (some t)).currentSearchIndex = st.currentSearchIndex ∧
        (pagerStep st "/" (some t)).currentLine = st.currentLine) ∧
    (∀ r rs, computeResults st.lines t = r :: rs →
        (pagerStep st "/" (some t)).currentSearchIndex = 0 ∧
        (pagerStep st "/" (some t)).currentLine = r) ∧
    ((pagerStep st "/" (some "")).searchTerm = "" ∧
      (pagerStep st "/" (some "")).searchResults = st.searchResults ∧
      (pagerStep st "/" (some "")).currentSearchIndex = st.currentSearchIndex ∧
      (pagerStep st "/" (some "")).currentLine = st.currentLine) := by
  have hstep : ∀ u, pagerStep st "/" u = searchCmd st u := by
    intro u
    unfold pagerStep
    simp
  refine ⟨?_, ?_, ?_, ?_, ?_⟩
  · rw [hstep]
    by_cases hr : computeResults st.lines t = []
    · simp [searchCmd, ht, hr]
    · rcases he : computeResults st.lines t with _ | ⟨r, rs⟩
      · exact absurd he hr
      · simp [searchCmd, ht, he]
  · rw [hstep]
    rcases he : computeResults st.lines t with _ | ⟨r, rs⟩ <;>
      simp [searchCmd, ht, he]
  · intro hr
    rw [hstep]
    simp [searchCmd, ht, hr]
  · intro r rs hr
    rw [hstep]
    simp [searchCmd, ht, hr]
  · rw [hstep]
    simp [searchCmd]

/-- Witness for C6 (amended): searching the demo document for `"x"` stores
the term, recomputes `matchLines = [4]`, resets the cursor and jumps. -/
theorem search_recompute_amended_witness :
    (pagerStep demoState "/" (some "x")).currentSearchIndex = 0 ∧
    (pagerStep demoState "/" (some "x")).currentLine = 4 :=
  (search_recompute_amended demoState "x" (by decide)).2.2.2.1 4 [] (by decide)

/-- **C7** (counterexample).  The claim fails as stated: re-using one
`ManualPager` instance, a second `display` call starts with the previous
session's search state — after searching `"x"` in the demo document,
displaying a fresh document leaves `searchTerm = "x"` and
`matchLines = [4]`, not an empty search state. -/
theorem display_retains_search_state :
    ((display (pagerStep (display (pagerInit 24 80) demoState.lines) "/" (some "x"))
        ["fresh line"]).searchTerm = "x") ∧
    ((display (pagerStep (display (pagerInit 24 80) demoState.lines) "/" (some "x"))
        ["fresh line"]).searchTerm ≠ "") ∧
    ((display (pagerStep (display (pagerInit 24 80) demoState.lines) "/" (some "x"))
        ["fresh line"]).searchResults = [4]) := by
  refine ⟨by decide, by decide, by decide⟩

/-- **C7** (amended).  `display` replaces the rendered lines and resets
`topLine` to `0`, but `searchTerm`, `matchLines` and `currentMatchIndex`
persist from any previous session on the same instance; only a freshly
constructed `ManualPager` starts with an empty search state. -/
theorem display_reset_amended (st : PagerState) (renderedLines : List String)
    (rows columns : Nat) :
    (display st renderedLines).currentLine = 0 ∧
    (display st renderedLines).lines = renderedLines ∧
    (display st renderedLines).searchTerm = st.searchTerm ∧
    (display st renderedLines).searchResults = st.searchResults ∧
    (display st renderedLines).currentSearchIndex = st.currentSearchIndex ∧
    ((pagerInit rows columns).currentLine = 0 ∧
      (pagerInit rows columns).searchTerm = "" ∧
      (pagerInit rows columns).searchResults = [] ∧
      (pagerInit rows columns).currentSearchIndex = 0) := by
  refine ⟨rfl, rfl, rfl, rfl, rfl, rfl, rfl, rfl, rfl⟩

/-- Field equations for `nextSearchResult` on a non-empty result list. -/
theorem nextSearchResult_fields (st : PagerState) (h : st.searchResults ≠ []) :
    (nextSearchResult st).currentSearchIndex =
      (st.currentSearchIndex + 1) % st.searchResults.length ∧
    (nextSearchResult st).currentLine =
      st.searchResults.getD ((st.currentSearchIndex + 1) % st.searchResults.length) 0 ∧
    (nextSearchResult st).searchResults = st.searchResults := by
  have hne : st.searchResults.length ≠ 0 := fun hh => h (List.length_eq_zero.mp hh)
  unfold nextSearchResult
  simp [hne]

/-- Field equations for `prevSearchResult` on a non-empty result list. -/
theorem prevSearchResult_fields (st : PagerState) (h : st.searchResults ≠ []) :
    (prevSearchResult st).currentSearchIndex =
      (if st.currentSearchIndex = 0 then st.searchResults.length - 1
       else st.currentSearchIndex - 1) ∧
    (prevSearchResult st).currentLine =
      st.searchResults.getD
        (if st.currentSearchIndex = 0 then st.searchResults.length - 1
         else st.currentSearchIndex - 1) 0 ∧
    (prevSearchResult st).searchResults = st.searchResults := by
  have hne : st.searchResults.length ≠ 0 := fun hh => h (List.length_eq_zero.mp hh)
  unfold prevSearchResult
  simp [hne]

/-- Iterating `nextSearchResult` `m + 1` times advances the match cursor by
`m + 1` modulo the (unchanged) number of matches. -/
theorem nextSearchResult_iterate (st : PagerState) (h : st.searchResults ≠ []) :
    ∀ m : Nat,
      (nextSearchResult^[m + 1] st).currentSearchIndex =
        (st.currentSearchIndex + (m + 1)) % st.searchResults.length ∧
      (nextSearchResult^[m + 1] st).searchResults = st.searchResults := by
  intro m
  induction m with
  | zero =>
    rw [Function.iterate_one]
    exact ⟨(nextSearchResult_fields st h).1, (nextSearchResult_fields st h).2.2⟩
  | succ k ih =>
    have hres : (nextSearchResult^[k + 1] st).searchResults = st.searchResults := ih.2
    have hne2 : (nextSearchResult^[k + 1] st).searchResults ≠ [] := by
      rw [hres]
      exact h
    obtain ⟨hi, _, hr⟩ := nextSearchResult_fields _ hne2
    constructor
    · calc (nextSearchResult^[k + 1 + 1] st).currentSearchIndex
          = ((nextSearchResult^[k + 1] st).currentSearchIndex + 1) %
              (nextSearchResult^[k + 1] st).searchResults.length := by
            rw [Function.iterate_succ_apply']
            exact hi
        _ = ((st.currentSearchIndex + (k + 1)) % st.searchResults.length + 1) %
              st.searchResults.length := by rw [ih.1, hres]
        _ = (st.currentSearchIndex + (k + 1) + 1) % st.searchResults.length := by
            rw [Nat.mod_add_mod]
        _ = (st.currentSearchIndex + (k + 1 + 1)) % st.searchResults.length := by
            congr 1
    · rw [Function.iterate_succ_apply', hr, hres]

/-- **C8.**  With a non-empty `matchLines`, `n` advances the match cursor
circularly forward and `N` circularly backward, each time jumping `topLine`
to `matchLines[currentMatchIndex]`; pressing `n` as many times as there are
matches, starting from cursor `0`, returns the cursor to `0`; with no
matches, `n` and `N` leave the state unchanged. -/
theorem search_navigation_circular (st : PagerState) :
    (st.searchResults = [] → nextSearchResult st = st ∧ prevSearchResult st = st) ∧
    (st.searchResults ≠ [] →
        (nextSearchResult st).currentSearchIndex =
          (st.currentSearchIndex + 1) % st.searchResults.length ∧
        (nextSearchResult st).currentLine =
          st.searchResults.getD ((nextSearchResult st).currentSearchIndex) 0 ∧
        (prevSearchResult st).currentSearchIndex =
          (if st.currentSearchIndex = 0 then st.searchResults.length - 1
           else st.currentSearchIndex - 1) ∧
        (prevSearchResult st).currentLine =
          st.searchResults.getD ((prevSearchResult st).currentSearchIndex) 0) ∧
    (st.searchResults ≠ [] → st.currentSearchIndex = 0 →
        (nextSearchResult^[st.searchResults.length] st).currentSearchIndex = 0) := by
  refine ⟨?_, ?_, ?_⟩
  · intro hempty
    constructor
    · unfold nextSearchResult
      simp [hempty]
    · unfold prevSearchResult
      simp [hempty]
  · intro h
    obtain ⟨hni, hnl, hnr⟩ := nextSearchResult_fields st h
    obtain ⟨hpi, hpl, hpr⟩ := prevSearchResult_fields st h
    exact ⟨hni, by rw [hnl, hni], hpi, by rw [hpl, hpi]⟩
  · intro h h0
    rcases hlen : st.searchResults.length with _ | m
    · exact absurd (List.length_eq_zero.mp hlen) h
    · have hiter := (nextSearchResult_iterate st h m).1
      rw [hlen] at hiter
      rw [h0] at hiter
      rw [hiter]
      simp

/-- Witness for C8: with `matchLines = [3, 7, 12]` and cursor `0`, pressing
`n` three times returns the cursor to `0`. -/
theorem search_navigation_circular_witness :
    (nextSearchResult^[3]
      { demoState with searchResults := [3, 7, 12],
                       currentSearchIndex := 0 }).currentSearchIndex = 0 := by
  have h := (search_navigation_circular
    { demoState with searchResults := [3, 7, 12], currentSearchIndex := 0 }).2.2
    (by decide) rfl
  simpa using h

/-- The 100-line scenario from the spec: 100 rendered lines in a viewport of
height 20. -/
def scenario100 : PagerState :=
  { lines := List.replicate 100 "line"
    currentLine := 0
    terminalHeight := 20
    terminalWidth := 80
    searchTerm := ""
    searchResults := []
    currentSearchIndex := 0 }

/-- **C9.**  `End` (or `G`) sets `topLine = max(0, totalLines −
viewportHeight)` (`Nat` subtraction is exactly that maximum, as the `Int`
form states explicitly) and `Home` (or `g`) sets `topLine = 0`; with 100
rendered lines and viewport height 20, `End` yields `topLine = 80` and a
subsequent `Home` yields `topLine = 0`. -/
theorem end_home_topLine (st : PagerState) (input : Option String) :
    ((pagerStep st "end" input).currentLine = st.lines.length - st.terminalHeight) ∧
    ((pagerStep st "G" input).currentLine = st.lines.length - st.terminalHeight) ∧
    ((pagerStep st "home" input).currentLine = 0) ∧
    ((pagerStep st "g" input).currentLine = 0) ∧
    (((pagerStep st "end" input).currentLine : Int) =
        max 0 ((st.lines.length : Int) - (st.terminalHeight : Int))) ∧
    ((pagerStep scenario100 "end" none).currentLine = 80 ∧
      (pagerStep (pagerStep scenario100 "end" none) "home" none).currentLine = 0) := by
  have hend : (pagerStep st "end" input).currentLine =
      st.lines.length - st.terminalHeight := by
    unfold pagerStep
    simp
  refine ⟨hend, ?_, ?_, ?_, ?_, by decide, by decide⟩
  · unfold pagerStep
    simp
  · unfold pagerStep
    simp
  · unfold pagerStep
    simp
  · rw [hend]
    omega

/-- `Char.ofNat` of a code point below the surrogate range decodes back to
the same code point. -/
theorem toNat_ofNat_ascii {n : Nat} (h : n < 0xd800) : (Char.ofNat n).toNat = n := by
  unfold Char.ofNat
  rw [dif_pos (Or.inl h)]
  rfl

/-- ASCII lowering is idempotent on characters. -/
theorem charToLowerCase_idem (c : Char) :
    charToLowerCase (charToLowerCase c) = charToLowerCase c := by
  by_cases h : 65 ≤ c.toNat ∧ c.toNat ≤ 90
  · have hv : (Char.ofNat (c.toNat + 32)).toNat = c.toNat + 32 :=
      toNat_ofNat_ascii (by omega)
    have h2 : ¬(65 ≤ (Char.ofNat (c.toNat + 32)).toNat ∧
        (Char.ofNat (c.toNat + 32)).toNat ≤ 90) := by
      rw [hv]
      omega
    unfold charToLowerCase
    rw [if_pos h, if_neg h2]
  · simp [charToLowerCase, h]

/-- ASCII lowering is idempotent on character lists. -/
theorem map_lower_idem (l : List Char) :
    (l.map charToLowerCase).map charToLowerCase = l.map charToLowerCase := by
  induction l with
  | nil => rfl
  | cons c rest ih => simp [ih, charToLowerCase_idem]

/-- `toLowerCase` is idempotent. -/
theorem toLowerCase_idem (s : String) : toLowerCase (toLowerCase s) = toLowerCase s := by
  unfold toLowerCase
  exact congrArg String.mk (map_lower_idem s.data)

/-- Looking up the key just written into a JavaScript `Map` model returns the
written value. -/
theorem mapGet_mapSet_self (m : List (String × ManualPage)) (k : String) (v : ManualPage) :
    mapGet (mapSet m k v) k = some v := by
  induction m with
  | nil => simp [mapSet, mapGet]
  | cons p rest ih =>
    obtain ⟨k', v'⟩ := p
    by_cases h : k' = k
    · simp [mapSet, mapGet, h]
    · simp [mapSet, mapGet, h, ih]

/-- **C10.**  The registry normalizes keys at every boundary: `get` and `has`
agree on a command and its lower-cased form; after `register(s, p)`, `get`
returns `p` for every string that lower-cases like `s`; and `unregister` and
`register` act on the normalized key (applying them to `s` and to
`lowercase(s)` is indistinguishable). -/
theorem registry_case_insensitive (r : ManualRegistry) (s s' : String) (p : ManualPage)
    (h : toLowerCase s' = toLowerCase s) :
    (r.get s = r.get (toLowerCase s)) ∧
    (r.hasPage s = r.hasPage (toLowerCase s)) ∧
    ((r.register s p).get s' = some p) ∧
    (r.unregister s = r.unregister (toLowerCase s)) ∧
    (r.register s p = r.register (toLowerCase s) p) := by
  refine ⟨?_, ?_, ?_, ?_, ?_⟩
  · unfold ManualRegistry.get
    rw [toLowerCase_idem]
  · unfold ManualRegistry.hasPage
    rw [toLowerCase_idem]
  · unfold ManualRegistry.get ManualRegistry.register
    rw [h]
    exact mapGet_mapSet_self r.pages (toLowerCase s) p
  · unfold ManualRegistry.unregister
    rw [toLowerCase_idem]
  · unfold ManualRegistry.register
    rw [toLowerCase_idem]

/-- Witness for C10: registering under `"Xyz"` makes the page visible under
`"xYZ"` on the sample registry. -/
theorem registry_case_insensitive_witness :
    (sampleRegistry.register "Xyz"
        { command := "xyz", synopsis := "xyz", description := [], sections := [] }).get "xYZ" =
      some { command := "xyz", synopsis := "xyz", description := [], sections := [] } :=
  (registry_case_insensitive sampleRegistry "Xyz" "xYZ"
      { command := "xyz", synopsis := "xyz", description := [], sections := [] }
      (by decide)).2.2.1
